import Mathlib

set_option maxRecDepth 20000

/-!
Verification development for the Field Data Collection and Sync Tool.

This file embeds the decision logic of the repository in Lean 4:
the client-side filter engine and CSV export (`src/components/RecordsView.tsx`),
the dashboard aggregation (`Dashboard` component, `loadDashboardData`),
and the chatbot edge function (the `Deno.serve` handler and
`generateFallbackResponse`).

JavaScript strings are embedded as Lean `String`; JavaScript string
truthiness is the test against the empty string.  The JavaScript `Date`
constructor is embedded as a parser `jsDate` returning `Option Nat`:
`none` is an Invalid Date (time value NaN), and a `some` value is an
encoding of the time value that is strictly monotone in the calendar
order of year, month, day, hour, minute, second (the development only
ever compares time values, so any order-isomorphic encoding is
faithful).  Comparisons against NaN are false in JavaScript, which
`jsDateGe` and `jsDateLe` reproduce on `none`.
-/

/-- An apostrophe character, used to build string literals faithfully. -/
def apos : String := String.singleton (Char.ofNat 39)

/-- A row of the `field_records` table as used by the Records view:
`id`, `field`, `value`, `location`, `timestamp` (all text in transit). -/
structure FieldRecord where
  id : String
  field : String
  value : String
  location : String
  timestamp : String
deriving DecidableEq

/-- Test whether the first character list is a prefix of the second. -/
def isPrefixList : List Char → List Char → Bool
  | [], _ => true
  | _ :: _, [] => false
  | a :: as, b :: bs => a = b && isPrefixList as bs

/-- Test whether the first character list occurs contiguously inside
the second. -/
def isInfixList (sub : List Char) : List Char → Bool
  | [] => sub.isEmpty
  | b :: bs => isPrefixList sub (b :: bs) || isInfixList sub bs

/-- JavaScript `s.includes(sub)`: `sub` occurs as a contiguous substring
of `s` (always true for the empty substring). -/
def includes (s sub : String) : Bool :=
  isInfixList sub.data s.data

/-- JavaScript `s.toLowerCase()` on the ASCII range: lowercase every
character. -/
def jsToLower (s : String) : String :=
  ⟨s.data.map Char.toLower⟩

/-- Digit value of a character, `none` for non-digits. -/
def digitVal (c : Char) : Option Nat :=
  if c.isDigit then some (c.toNat - 48) else none

/-- Parse the ten characters `YYYY-MM-DD`; months run 1 to 12 and days
1 to 31, otherwise the result is `none` (Invalid Date). -/
def parseDateChars : List Char → Option (Nat × Nat × Nat)
  | [y1, y2, y3, y4, c1, m1, m2, c2, d1, d2] =>
    if c1 = '-' ∧ c2 = '-' then
      match digitVal y1, digitVal y2, digitVal y3, digitVal y4,
            digitVal m1, digitVal m2, digitVal d1, digitVal d2 with
      | some a, some b, some c, some d, some e, some f, some g, some h =>
        let y := ((a * 10 + b) * 10 + c) * 10 + d
        let mo := e * 10 + f
        let da := g * 10 + h
        if 1 ≤ mo ∧ mo ≤ 12 ∧ 1 ≤ da ∧ da ≤ 31 then some (y, mo, da) else none
      | _, _, _, _, _, _, _, _ => none
    else none
  | _ => none

/-- Parse the eight characters `HH:MM:SS` (hours to 23, minutes and
seconds to 59), otherwise `none`. -/
def parseTimeChars : List Char → Option (Nat × Nat × Nat)
  | [h1, h2, c1, m1, m2, c2, s1, s2] =>
    if c1 = ':' ∧ c2 = ':' then
      match digitVal h1, digitVal h2, digitVal m1, digitVal m2,
            digitVal s1, digitVal s2 with
      | some a, some b, some c, some d, some e, some f =>
        let hh := a * 10 + b
        let mi := c * 10 + d
        let ss := e * 10 + f
        if hh ≤ 23 ∧ mi ≤ 59 ∧ ss ≤ 59 then some (hh, mi, ss) else none
      | _, _, _, _, _, _ => none
    else none
  | _ => none

/-- Time value of a calendar instant: an encoding strictly monotone in
the lexicographic order of its six components (days are at most 31, so
the factors preserve order). -/
def epochOf (y mo da hh mi ss : Nat) : Nat :=
  ((((y * 12 + mo) * 31 + da) * 24 + hh) * 60 + mi) * 60 + ss

/-- Model of the JavaScript `new Date(s)` parse for the ISO forms this
code feeds it: a bare date `YYYY-MM-DD` (midnight) or a date-time
`YYYY-MM-DDTHH:MM:SS`.  Every other string is an Invalid Date, giving
`none` (time value NaN). -/
def jsDate (s : String) : Option Nat :=
  match s.data with
  | [a, b, c, d, e, f, g, h, i, j] =>
    (parseDateChars [a, b, c, d, e, f, g, h, i, j]).map
      (fun p => epochOf p.1 p.2.1 p.2.2 0 0 0)
  | a :: b :: c :: d :: e :: f :: g :: h :: i :: j :: 'T' :: rest =>
    match parseDateChars [a, b, c, d, e, f, g, h, i, j], parseTimeChars rest with
    | some p, some t => some (epochOf p.1 p.2.1 p.2.2 t.1 t.2.1 t.2.2)
    | _, _ => none
  | _ => none

/-- JavaScript `dateA >= dateB` on Date objects: numeric comparison of
time values, false whenever either side is NaN (an Invalid Date). -/
def jsDateGe (a b : Option Nat) : Bool :=
  match a, b with
  | some x, some y => y ≤ x
  | _, _ => false

/-- JavaScript `dateA <= dateB` on Date objects: numeric comparison of
time values, false whenever either side is NaN (an Invalid Date). -/
def jsDateLe (a b : Option Nat) : Bool :=
  match a, b with
  | some x, some y => x ≤ y
  | _, _ => false

/-- The filter panel state of the Records view: field, location and the
two date bounds, each a text input whose empty string means unset. -/
structure FilterState where
  field : String
  location : String
  dateFrom : String
  dateTo : String
deriving DecidableEq

/-- One guarded filtering step of `applyFilters`: JavaScript
`if (g) { filtered = filtered.filter(p) }`, where the guard `g` is a
string and the empty string is falsy. -/
def guardFilter (g : String) (p : FieldRecord → Bool) (l : List FieldRecord) :
    List FieldRecord :=
  if g = "" then l else l.filter p

/-- The search predicate of `applyFilters`: the term occurs
case-insensitively in the field name, the value or the location. -/
def searchPred (searchTerm : String) (r : FieldRecord) : Bool :=
  includes (jsToLower r.field) (jsToLower searchTerm) ||
  includes (jsToLower r.value) (jsToLower searchTerm) ||
  includes (jsToLower r.location) (jsToLower searchTerm)

/-- The `applyFilters` function of `RecordsView.tsx`: starting from a
copy of the records, apply in order the text search, the field filter,
the location filter, the `dateFrom` lower bound and the `dateTo` upper
bound (the latter with `T23:59:59` appended to the bound before
parsing), each step skipped when its criterion is the empty string. -/
def applyFilters (records : List FieldRecord) (searchTerm : String)
    (filters : FilterState) : List FieldRecord :=
  let filtered := records
  let filtered := guardFilter searchTerm (searchPred searchTerm) filtered
  let filtered := guardFilter filters.field
    (fun r => includes (jsToLower r.field) (jsToLower filters.field)) filtered
  let filtered := guardFilter filters.location
    (fun r => includes (jsToLower r.location) (jsToLower filters.location)) filtered
  let filtered := guardFilter filters.dateFrom
    (fun r => jsDateGe (jsDate r.timestamp) (jsDate filters.dateFrom)) filtered
  let filtered := guardFilter filters.dateTo
    (fun r => jsDateLe (jsDate r.timestamp) (jsDate (filters.dateTo ++ "T23:59:59")))
    filtered
  filtered

/-- The filter state with every criterion left empty. -/
def emptyFilters : FilterState := ⟨"", "", "", ""⟩

example : jsDate "2024-03-05" = some (epochOf 2024 3 5 0 0 0) := by decide
example : jsDate "2024-03-05T23:59:00" = some (epochOf 2024 3 5 23 59 0) := by decide
example : jsDate "garbage" = none := by decide
example : jsDate "2024-13-05" = none := by decide

/-- Canned reply of `generateFallbackResponse` for messages mentioning
temperature. -/
def tempResponse : String :=
  "For temperature measurements, ensure your sensors are calibrated and protected from direct sunlight. Normal soil temperatures range from 50-80°F depending on season and depth. Consider measuring at multiple depths for better insights."

/-- Canned reply for messages mentioning humidity. -/
def humidityResponse : String :=
  "Humidity levels are crucial for crop health. Ideal relative humidity varies by crop but generally ranges from 40-70%. High humidity can lead to fungal issues, while low humidity may stress plants. Monitor throughout the day as levels fluctuate."

/-- Canned reply for messages mentioning soil or pH. -/
def soilResponse : String :=
  "Soil pH affects nutrient availability. Most crops prefer slightly acidic to neutral soil (pH 6.0-7.0). Test soil pH regularly and consider amendments like lime to raise pH or sulfur to lower it. Take samples from multiple locations for accuracy."

/-- Canned reply for messages mentioning data or records. -/
def dataResponse : String :=
  "Consistent data collection is key to successful field management. Record measurements at the same time daily when possible, maintain detailed location notes, and look for patterns over time. Your data helps identify trends and optimize practices."

/-- Canned reply for messages asking for help or how to do something. -/
def helpResponse : String :=
  "I" ++ apos ++ "m here to help with your field data questions! I can provide insights on temperature, humidity, soil conditions, and data collection best practices. Feel free to ask about specific measurements or general field management guidance."

/-- Generic canned closing guidance, returned when no keyword matches. -/
def genericResponse : String :=
  "Thank you for your question! I can provide general guidance on field data practices. Please ensure consistent data collection timing, record detailed location information, and look for patterns in your data over time. For specific technical questions, consider consulting with agricultural extension services or field specialists."

/-- The `generateFallbackResponse` function of the chatbot edge
function: lowercase the message, then test the keyword groups in
source order, first match wins, generic guidance otherwise. -/
def generateFallbackResponse (message : String) : String :=
  let lowerMessage := jsToLower message
  if includes lowerMessage "temperature" then tempResponse
  else if includes lowerMessage "humidity" then humidityResponse
  else if includes lowerMessage "soil" || includes lowerMessage "ph" then soilResponse
  else if includes lowerMessage "data" || includes lowerMessage "record" then dataResponse
  else if includes lowerMessage "help" || includes lowerMessage "how" then helpResponse
  else genericResponse

/-- The ordered keyword rules of the fallback classifier, as the spec
words them: a list of (keyword group, canned response) pairs evaluated
top to bottom. -/
def fallbackRules : List (List String × String) :=
  [(["temperature"], tempResponse),
   (["humidity"], humidityResponse),
   (["soil", "ph"], soilResponse),
   (["data", "record"], dataResponse),
   (["help", "how"], helpResponse)]

/-- First-match-wins evaluation of an ordered rule list against a
lowercased message, with a default when no rule fires. -/
def matchRules (lower : String) : List (List String × String) → String → String
  | [], dflt => dflt
  | (kws, resp) :: rest, dflt =>
    if kws.any (fun k => includes lower k) then resp
    else matchRules lower rest dflt

/-- The fallback classifier as the spec describes it: an explicit
ordered list of (predicate, response) pairs over the lowercased
message, evaluated top to bottom, first match wins. -/
def classifyMessage (message : String) : String :=
  matchRules (jsToLower message) fallbackRules genericResponse

/-- The six canned strings the fallback classifier can return. -/
def cannedResponses : List String :=
  [tempResponse, humidityResponse, soilResponse, dataResponse,
   helpResponse, genericResponse]

/-- The JSON body of a chatbot request: `message`, `user_id` and an
optional `apiKey`.  A missing string field is embedded as the empty
string, which is exactly what the handler tests for (JavaScript
falsiness of strings). -/
structure ChatbotRequest where
  message : String
  user_id : String
  apiKey : Option String
deriving DecidableEq

/-- Outcome of the delegated call to the generative-language endpoint.
`thrown` covers every exception reaching the handler catch block: a
rejected fetch (network failure) and a response body whose JSON parse
throws.  `httpError` is a completed response with a non-2xx status.
`okJson` is a 2xx response with a parsed JSON body whose optional
payload is `candidates[0].content.parts[0].text`; `none` is a body
missing that path (a malformed success payload). -/
inductive GeminiOutcome where
  | thrown : GeminiOutcome
  | httpError (status : Nat) (body : String) : GeminiOutcome
  | okJson (candidateText : Option String) : GeminiOutcome
deriving DecidableEq

/-- An HTTP response of the handler: status code, optional `error`
field and optional `response` field of the JSON body. -/
structure HttpResponse where
  status : Nat
  error : Option String
  response : Option String
deriving DecidableEq

/-- The error string of the 400 response for an incomplete request. -/
def missingFieldsError : String := "Missing required fields"

/-- The error string of the 500 response produced by the catch block. -/
def catchErrorText : String := "An error occurred while processing your request"

/-- The apologetic reply text of the 500 response of the catch block. -/
def catchApology : String :=
  "I apologize, but I" ++ apos ++ "m having trouble connecting right now. Please try again later."

/-- The reply used when a 2xx delegated response parses as JSON but has
no candidate text at the expected path. -/
def encounteredErrorReply : String :=
  "I apologize, but I encountered an error processing your request."

/-- The `Deno.serve` handler of the chatbot edge function, for a
request whose JSON body parsed (a body whose parse throws lands in the
same catch block as `GeminiOutcome.thrown`).  Checks `message` and
`user_id`, answers 400 if either is missing; with no usable `apiKey`
answers 200 with the keyword fallback; otherwise the delegated outcome
decides: a non-2xx status answers 200 with the keyword fallback, a
thrown error answers 500 with a fixed apology, and a 2xx JSON body
answers 200 with the candidate text or a fixed error reply. -/
def chatbotHandler (req : ChatbotRequest) (gemini : GeminiOutcome) : HttpResponse :=
  if req.message = "" ∨ req.user_id = "" then
    ⟨400, some missingFieldsError, none⟩
  else if req.apiKey.getD "" = "" then
    ⟨200, none, some (generateFallbackResponse req.message)⟩
  else
    match gemini with
    | .thrown => ⟨500, some catchErrorText, some catchApology⟩
    | .httpError _ _ => ⟨200, none, some (generateFallbackResponse req.message)⟩
    | .okJson t => ⟨200, none, some (t.getD encounteredErrorReply)⟩


/-- JavaScript `array.join(sep)` for an array of strings: empty string
for the empty array, no trailing separator. -/
def joinSep (sep : String) : List String → String
  | [] => ""
  | [s] => s
  | s :: t :: rest => s ++ sep ++ joinSep sep (t :: rest)

/-- The CSV header row emitted by both export paths:
`csvHeaders.join(',')`. -/
def csvHeader : String := joinSep "," ["ID", "Field", "Value", "Location", "Timestamp"]

/-- One CSV data row: the five record attributes joined by commas with
no quoting or escaping, exactly
`[record.id, record.field, record.value, record.location, record.timestamp].join(',')`. -/
def csvRow (r : FieldRecord) : String :=
  joinSep "," [r.id, r.field, r.value, r.location, r.timestamp]

/-- The CSV text built by `exportFiltered` in the Records view and by
`exportData(format = csv)` in the Dashboard: the header row followed by
one row per record, joined by newlines. -/
def csvContent (records : List FieldRecord) : String :=
  joinSep "\n" (csvHeader :: records.map csvRow)

/-- Split a character list at every newline character; the result is
always non-empty, and splitting the empty list gives one empty line. -/
def splitNl : List Char → List (List Char)
  | [] => [[]]
  | c :: cs =>
    if c = '\n' then [] :: splitNl cs
    else (c :: (splitNl cs).headD []) :: (splitNl cs).tail

/-- The projection of a `field_records` row fetched by the Dashboard
(`select('field, value')` with a newest-first order and a window of
ten rows). -/
structure FieldSample where
  field : String
  value : String
deriving DecidableEq

/-- An entry of the Dashboard `FieldData` interface: a field name, a
count of its occurrences and the value seen for it. -/
structure FieldData where
  field : String
  count : Nat
  value : String
deriving DecidableEq

/-- One step of the `reduce` in `loadDashboardData`.  The JavaScript
accumulator is a plain object keyed by field name; it is embedded as a
list of entries in insertion order, which is the enumeration order of
`Object.values` for string keys (field names are taken to be ordinary
text, not array-index strings).  A missing key is first inserted with
count zero and the value of the current record, then the count of the
key is incremented. -/
def groupReduce (acc : List FieldData) (r : FieldSample) : List FieldData :=
  let acc := if acc.any (fun e => e.field = r.field) then acc
             else acc ++ [⟨r.field, 0, r.value⟩]
  acc.map (fun e => if e.field = r.field then ⟨e.field, e.count + 1, e.value⟩ else e)

/-- The grouped data of `loadDashboardData`: the reduce over the
fetched rows starting from the empty object. -/
def groupedData (rows : List FieldSample) : List FieldData :=
  rows.foldl groupReduce []

/-- The dashboard aggregation: group the rows by field name and keep
the first `limit` groups, as in `Object.values(groupedData).slice(0, limit)`
(the component calls this with `limit = 5`). -/
def aggregate (rows : List FieldSample) (limit : Nat) : List FieldData :=
  (groupedData rows).take limit

/-- Distinct values of a list in first-seen order, with an accumulator
of values already seen. -/
def firstSeenAux (seen : List String) : List String → List String
  | [] => []
  | a :: l => if a ∈ seen then firstSeenAux seen l
              else a :: firstSeenAux (a :: seen) l

/-- Distinct values of a list in first-seen order. -/
def firstSeen (l : List String) : List String := firstSeenAux [] l

/-- Number of rows carrying the given field name. -/
def countField (rows : List FieldSample) (f : String) : Nat :=
  (rows.filter (fun r => r.field = f)).length

/-- Value of the first row carrying the given field name (default the
empty string when the field does not occur). -/
def firstValue (rows : List FieldSample) (f : String) : String :=
  ((rows.find? (fun r => r.field = f)).map FieldSample.value).getD ""

/-- The aggregation as the spec words it: group by field name in
first-seen order of distinct field values, count occurrences per group,
keep the value of the first record seen per group, and truncate the
output to `limit` groups. -/
def specAggregate (rows : List FieldSample) (limit : Nat) : List FieldData :=
  (((firstSeen (rows.map FieldSample.field)).map
    (fun f => ⟨f, countField rows f, firstValue rows f⟩)) : List FieldData).take limit

/-- A sample record with a fixed identity and a given timestamp, used
to instantiate the filter claims. -/
def tsRecord (ts : String) : FieldRecord := ⟨"1", "Temp", "20", "Field A", ts⟩

/-- Filter criteria with only the `dateTo` bound set to 2024-03-05. -/
def dateToCriteria : FilterState := ⟨"", "", "", "2024-03-05"⟩

theorem guardFilter_sublist (g : String) (p : FieldRecord → Bool)
    (l : List FieldRecord) : List.Sublist (guardFilter g p l) l := by
  unfold guardFilter
  split
  · exact List.Sublist.refl l
  · exact List.filter_sublist l

/-- Claim C7: for every record sequence and criteria, the filter result
is a subsequence of the input, preserving relative order with no
reordering and no duplication. -/
theorem C7_filter_sublist_of_input (R : List FieldRecord) (s : String)
    (f : FilterState) : List.Sublist (applyFilters R s f) R := by
  unfold applyFilters
  exact ((((guardFilter_sublist _ _ _).trans (guardFilter_sublist _ _ _)).trans
    (guardFilter_sublist _ _ _)).trans (guardFilter_sublist _ _ _)).trans
    (guardFilter_sublist _ _ _)

/-- Claim C8: filtering with the empty search term and every criterion
empty returns the input list unchanged. -/
theorem C8_empty_criteria_identity (R : List FieldRecord) :
    applyFilters R "" emptyFilters = R := rfl

/-- Claim C2 (evidence of the code behaviour): a malformed date bound
does not raise any error; the invalid date makes every comparison
false, so the filter silently excludes every record, both for
`dateFrom` and for `dateTo`. -/
theorem C2_malformed_date_silently_excludes :
    jsDate "not-a-date" = none ∧
    applyFilters [tsRecord "2024-03-05T10:00:00"] "" ⟨"", "", "not-a-date", ""⟩ = [] ∧
    applyFilters [tsRecord "2024-03-05T10:00:00"] "" ⟨"", "", "", "not-a-date"⟩ = [] := by
  refine ⟨by decide, by decide, by decide⟩

/-- Claim C5: with `dateTo` set to 2024-03-05 the filter keeps exactly
the records whose timestamp is at most 2024-03-05T23:59:59 (the bound
is inclusive through the end of the day); in particular a record
timestamped 2024-03-05T23:59:00 is included and one timestamped
2024-03-06T00:00:01 is excluded. -/
theorem C5_dateTo_end_of_day :
    (∀ ts e, jsDate ts = some e →
      applyFilters [tsRecord ts] "" dateToCriteria =
        if e ≤ epochOf 2024 3 5 23 59 59 then [tsRecord ts] else []) ∧
    applyFilters [tsRecord "2024-03-05T23:59:00"] "" dateToCriteria =
      [tsRecord "2024-03-05T23:59:00"] ∧
    applyFilters [tsRecord "2024-03-06T00:00:01"] "" dateToCriteria = [] := by
  refine ⟨?_, by decide, by decide⟩
  intro ts e h
  have hb : jsDate ("2024-03-05" ++ "T23:59:59") = some (epochOf 2024 3 5 23 59 59) := by
    decide
  simp only [applyFilters, guardFilter, dateToCriteria, tsRecord]
  norm_num
  rw [List.filter_singleton]
  rw [h, hb]
  simp only [jsDateLe]
  split
  · simp_all
  · simp_all

/-- Witness for claim C5 at the concrete timestamp
2024-03-05T23:59:00. -/
theorem C5_dateTo_end_of_day_witness :
    applyFilters [tsRecord "2024-03-05T23:59:00"] "" dateToCriteria =
      if epochOf 2024 3 5 23 59 0 ≤ epochOf 2024 3 5 23 59 59 then
        [tsRecord "2024-03-05T23:59:00"] else [] :=
  C5_dateTo_end_of_day.1 "2024-03-05T23:59:00" (epochOf 2024 3 5 23 59 0) (by decide)

/-- Claim C3: the fallback classifier equals first-match-wins
evaluation of the ordered keyword rules temperature; humidity; soil or
ph; data or record; help or how; otherwise generic, over the lowercased
message; the soil question receives the soil/pH canned reply and
"hello" receives the generic closing guidance. -/
theorem C3_fallback_priority_order :
    (∀ m, generateFallbackResponse m = classifyMessage m) ∧
    generateFallbackResponse ("What" ++ apos ++ "s the ideal soil pH?") = soilResponse ∧
    generateFallbackResponse "hello" = genericResponse := by
  refine ⟨?_, by decide, by decide⟩
  intro m
  simp [generateFallbackResponse, classifyMessage, matchRules, fallbackRules]

/-- Claim C10: the fallback classifier is total and deterministic; on
every message it returns one of the six fixed canned strings, each of
which is non-empty, and equal inputs give equal outputs. -/
theorem C10_classifier_total_deterministic :
    (∀ m, generateFallbackResponse m ∈ cannedResponses) ∧
    cannedResponses.all (fun r => !r.isEmpty) = true ∧
    (∀ m, generateFallbackResponse m = generateFallbackResponse m) := by
  refine ⟨?_, by decide, fun m => rfl⟩
  intro m
  unfold generateFallbackResponse cannedResponses
  simp only []
  split_ifs <;> simp

/-- Claim C9: for every request, the handler response under a non-2xx
delegated status equals the response with no credential configured, and
for the message "temperature check" both give the temperature canned
reply. -/
theorem C9_non2xx_equals_no_credential :
    (∀ msg uid key st body out,
      chatbotHandler ⟨msg, uid, some key⟩ (.httpError st body) =
        chatbotHandler ⟨msg, uid, none⟩ out) ∧
    (chatbotHandler ⟨"temperature check", "user-1", some "k"⟩
      (.httpError 403 "quota")).response = some tempResponse ∧
    (chatbotHandler ⟨"temperature check", "user-1", none⟩
      (.okJson none)).response = some tempResponse := by
  refine ⟨?_, by decide, by decide⟩
  intro msg uid key st body out
  unfold chatbotHandler
  split_ifs <;> simp_all

/-- Claim C1 (counterexample): for the well-formed request carrying the
message "temperature check" and a user identifier, a thrown delegated
call (network failure) surfaces a hard failure: the handler answers
status 500 with an error field and a fixed apology instead of the
keyword-classified fallback reply. -/
theorem C1_thrown_surfaces_500 :
    ("temperature check" ≠ "" ∧ "user-1" ≠ "") ∧
    chatbotHandler ⟨"temperature check", "user-1", some "k"⟩ .thrown =
      ⟨500, some catchErrorText, some catchApology⟩ ∧
    catchApology ≠ generateFallbackResponse "temperature check" := by
  exact ⟨by decide, by decide, by decide⟩

/-- Claim C1 (amended): for a well-formed request, the handler resolves
to the keyword-classified fallback with status 200 when no credential
is supplied or when the delegated call completes with a non-2xx status;
a thrown delegated call instead yields a 500 with a fixed apology, and
a 2xx payload without candidate text yields a fixed error reply with
status 200; the 400 invalid-request error occurs exactly when the
request lacks a message or a user identifier, and an error field is
present exactly on a missing-field request or a thrown delegated
call. -/
theorem C1_assistant_failure_semantics (msg uid key : String)
    (hm : msg ≠ "") (hu : uid ≠ "") (hk : key ≠ "") :
    (∀ out, chatbotHandler ⟨msg, uid, none⟩ out =
      ⟨200, none, some (generateFallbackResponse msg)⟩) ∧
    (∀ st body, chatbotHandler ⟨msg, uid, some key⟩ (.httpError st body) =
      ⟨200, none, some (generateFallbackResponse msg)⟩) ∧
    chatbotHandler ⟨msg, uid, some key⟩ .thrown =
      ⟨500, some catchErrorText, some catchApology⟩ ∧
    (∀ t, chatbotHandler ⟨msg, uid, some key⟩ (.okJson t) =
      ⟨200, none, some (t.getD encounteredErrorReply)⟩) ∧
    (∀ req out, (chatbotHandler req out).status = 400 ↔
      (req.message = "" ∨ req.user_id = "")) ∧
    (∀ req out, (chatbotHandler req out).error ≠ none ↔
      (req.message = "" ∨ req.user_id = "" ∨
        (req.apiKey.getD "" ≠ "" ∧ out = .thrown))) := by
  refine ⟨?_, ?_, ?_, ?_, ?_, ?_⟩
  · intro out
    simp [chatbotHandler, hm, hu]
  · intro st body
    simp [chatbotHandler, hm, hu, hk]
  · simp [chatbotHandler, hm, hu, hk]
  · intro t
    simp [chatbotHandler, hm, hu, hk]
  · intro req out
    unfold chatbotHandler
    split_ifs with h1 h2
    · simp [h1]
    · simp [h1]
    · cases out <;> simp [h1]
  · intro req out
    unfold chatbotHandler
    split_ifs with h1 h2
    · simp [h1]
      tauto
    · simp [h1, h2]
    · cases out <;> simp [h1, h2]

/-- Witness for claim C1 at the concrete well-formed request with
message "temperature check", user identifier "user-1" and credential
"k". -/
theorem C1_assistant_failure_semantics_witness :
    (∀ out, chatbotHandler ⟨"temperature check", "user-1", none⟩ out =
      ⟨200, none, some (generateFallbackResponse "temperature check")⟩) ∧
    (∀ st body, chatbotHandler ⟨"temperature check", "user-1", some "k"⟩
      (.httpError st body) =
      ⟨200, none, some (generateFallbackResponse "temperature check")⟩) ∧
    chatbotHandler ⟨"temperature check", "user-1", some "k"⟩ .thrown =
      ⟨500, some catchErrorText, some catchApology⟩ ∧
    (∀ t, chatbotHandler ⟨"temperature check", "user-1", some "k"⟩ (.okJson t) =
      ⟨200, none, some (t.getD encounteredErrorReply)⟩) ∧
    (∀ req out, (chatbotHandler req out).status = 400 ↔
      (req.message = "" ∨ req.user_id = "")) ∧
    (∀ req out, (chatbotHandler req out).error ≠ none ↔
      (req.message = "" ∨ req.user_id = "" ∨
        (req.apiKey.getD "" ≠ "" ∧ out = .thrown))) :=
  C1_assistant_failure_semantics "temperature check" "user-1" "k"
    (by decide) (by decide) (by decide)

theorem splitNl_no_nl (cs : List Char) (h : '\n' ∉ cs) : splitNl cs = [cs] := by
  induction cs with
  | nil => rfl
  | cons c rest ih =>
    have hc : c ≠ '\n' := fun hh => h (hh ▸ List.mem_cons_self c rest)
    have hr : '\n' ∉ rest := fun hh => h (List.mem_cons_of_mem c hh)
    simp only [splitNl, hc, if_false, ih hr, List.headD, List.tail]

theorem splitNl_append_nl (xs ys : List Char) (h : '\n' ∉ xs) :
    splitNl (xs ++ '\n' :: ys) = xs :: splitNl ys := by
  induction xs with
  | nil => simp [splitNl]
  | cons c rest ih =>
    have hc : c ≠ '\n' := fun hh => h (hh ▸ List.mem_cons_self c rest)
    have hr : '\n' ∉ rest := fun hh => h (List.mem_cons_of_mem c hh)
    rw [List.cons_append]
    simp only [splitNl, hc, if_false]
    rw [ih hr]
    rfl

theorem splitNl_joinSep (s : String) (ss : List String)
    (hs : '\n' ∉ s.data) (hss : ∀ t ∈ ss, '\n' ∉ t.data) :
    splitNl (joinSep "\n" (s :: ss)).data = (s :: ss).map String.data := by
  induction ss generalizing s with
  | nil => simp [joinSep, splitNl_no_nl s.data hs]
  | cons t rest ih =>
    have ht : '\n' ∉ t.data := hss t (List.mem_cons_self t rest)
    have hrest : ∀ u ∈ rest, '\n' ∉ u.data :=
      fun u hu => hss u (List.mem_cons_of_mem t hu)
    have hjoin : joinSep "\n" (s :: t :: rest) = s ++ "\n" ++ joinSep "\n" (t :: rest) := rfl
    have hdata : (s ++ "\n" ++ joinSep "\n" (t :: rest)).data =
        s.data ++ '\n' :: (joinSep "\n" (t :: rest)).data := by
      simp [String.data_append]
    rw [hjoin, hdata, splitNl_append_nl s.data _ hs, ih t ht hrest]
    simp

/-- Sample records used to instantiate the CSV claim; the first one
carries an embedded comma in its location. -/
def csvSampleRecords : List FieldRecord :=
  [⟨"1", "Temp", "20", "40.1, -75.2", "2024-01-01T00:00:00"⟩,
   ⟨"2", "pH", "6.5", "plot 3", "2024-01-02T00:00:00"⟩]

/-- Claim C6: when no record attribute embeds a newline, the CSV text
splits into the literal header line followed by one unescaped
comma-joined line per record in input order, and the serialization is
deterministic (identical inputs give byte-identical output). -/
theorem C6_csv_serialization (R : List FieldRecord)
    (h : ∀ r ∈ R, '\n' ∉ (csvRow r).data) :
    splitNl (csvContent R).data = csvHeader.data :: R.map (fun r => (csvRow r).data) ∧
    csvHeader = "ID,Field,Value,Location,Timestamp" ∧
    (∀ r, csvRow r = r.id ++ "," ++ r.field ++ "," ++ r.value ++ "," ++
      r.location ++ "," ++ r.timestamp) ∧
    (∀ S, R = S → csvContent R = csvContent S) := by
  refine ⟨?_, by decide, ?_, fun S hRS => hRS ▸ rfl⟩
  swap
  · intro r
    simp only [csvRow, joinSep, String.append_assoc]
  have hhead : '\n' ∉ csvHeader.data := by decide
  have hrows : ∀ t ∈ R.map csvRow, '\n' ∉ t.data := by
    intro t ht
    rcases List.mem_map.mp ht with ⟨r, hr, rfl⟩
    exact h r hr
  have := splitNl_joinSep csvHeader (R.map csvRow) hhead hrows
  unfold csvContent
  rw [this]
  simp

/-- Witness for claim C6 at the two sample records, one of which has a
comma inside its location attribute. -/
theorem C6_csv_serialization_witness :
    (∀ r ∈ csvSampleRecords, '\n' ∉ (csvRow r).data) ∧
    (splitNl (csvContent csvSampleRecords).data =
      csvHeader.data :: csvSampleRecords.map (fun r => (csvRow r).data) ∧
    csvHeader = "ID,Field,Value,Location,Timestamp" ∧
    (∀ r, csvRow r = r.id ++ "," ++ r.field ++ "," ++ r.value ++ "," ++
      r.location ++ "," ++ r.timestamp) ∧
    (∀ S, csvSampleRecords = S → csvContent csvSampleRecords = csvContent S)) :=
  ⟨by decide, C6_csv_serialization csvSampleRecords (by decide)⟩

/-- The grouped entries before truncation, as the spec words them. -/
def specGroups (rows : List FieldSample) : List FieldData :=
  (firstSeen (rows.map FieldSample.field)).map
    (fun f => ⟨f, countField rows f, firstValue rows f⟩)

theorem mem_firstSeenAux (x : String) :
    ∀ (L s : List String), x ∈ firstSeenAux s L ↔ x ∈ L ∧ x ∉ s := by
  intro L
  induction L with
  | nil => intro s; simp [firstSeenAux]
  | cons a L ih =>
    intro s
    by_cases ha : a ∈ s
    · simp only [firstSeenAux, ha, if_true, ih, List.mem_cons]
      constructor
      · rintro ⟨hl, hs⟩; exact ⟨Or.inr hl, hs⟩
      · rintro ⟨hl | hl, hs⟩
        · exact absurd (hl ▸ ha) hs
        · exact ⟨hl, hs⟩
    · simp only [firstSeenAux, ha, if_false, List.mem_cons, ih, List.mem_cons]
      constructor
      · rintro (rfl | ⟨hl, hs⟩)
        · exact ⟨Or.inl rfl, ha⟩
        · exact ⟨Or.inr hl, fun hx => hs (Or.inr hx)⟩
      · rintro ⟨rfl | hl, hs⟩
        · exact Or.inl rfl
        · by_cases hxa : x = a
          · exact Or.inl hxa
          · exact Or.inr ⟨hl, fun hx => (hx.elim hxa hs : False)⟩

theorem firstSeenAux_snoc (x : String) :
    ∀ (L s : List String), firstSeenAux s (L ++ [x]) =
      firstSeenAux s L ++ (if x ∈ s ∨ x ∈ L then [] else [x]) := by
  intro L
  induction L with
  | nil =>
    intro s
    by_cases hx : x ∈ s <;> simp [firstSeenAux, hx]
  | cons a L ih =>
    intro s
    rw [List.cons_append]
    by_cases ha : a ∈ s
    · rw [firstSeenAux, if_pos ha, ih, firstSeenAux, if_pos ha]
      congr 1
      refine if_congr ?_ rfl rfl
      simp only [List.mem_cons]
      constructor
      · rintro (hs | hl)
        · exact Or.inl hs
        · exact Or.inr (Or.inr hl)
      · rintro (hs | rfl | hl)
        · exact Or.inl hs
        · exact Or.inl ha
        · exact Or.inr hl
    · rw [firstSeenAux, if_neg ha, ih, firstSeenAux, if_neg ha]
      by_cases hx : x ∈ a :: s ∨ x ∈ L
      · rw [if_pos hx, if_pos, List.append_nil, List.append_nil]
        simp only [List.mem_cons] at hx
        rcases hx with (rfl | hs) | hl
        · exact Or.inr (List.mem_cons_self x L)
        · exact Or.inl hs
        · exact Or.inr (List.mem_cons_of_mem a hl)
      · rw [if_neg hx, if_neg]
        · simp
        · simp only [List.mem_cons] at hx ⊢
          rintro (hs | rfl | hl)
          · exact hx (Or.inl (Or.inr hs))
          · exact hx (Or.inl (Or.inl rfl))
          · exact hx (Or.inr hl)

theorem mem_firstSeen (x : String) (L : List String) :
    x ∈ firstSeen L ↔ x ∈ L := by
  simp [firstSeen, mem_firstSeenAux]

theorem firstSeen_snoc (x : String) (L : List String) :
    firstSeen (L ++ [x]) = firstSeen L ++ (if x ∈ L then [] else [x]) := by
  simp [firstSeen, firstSeenAux_snoc]

theorem countField_snoc (P : List FieldSample) (r : FieldSample) (f : String) :
    countField (P ++ [r]) f = countField P f + (if r.field = f then 1 else 0) := by
  unfold countField
  rw [List.filter_append, List.length_append]
  congr 1
  by_cases h : r.field = f <;> simp [h]

theorem countField_eq_zero (P : List FieldSample) (f : String)
    (h : f ∉ P.map FieldSample.field) : countField P f = 0 := by
  unfold countField
  rw [List.length_eq_zero, List.filter_eq_nil_iff]
  intro a ha
  simp only [decide_eq_true_eq]
  intro hf
  exact h (List.mem_map.mpr ⟨a, ha, hf⟩)

theorem find?_snoc (P : List FieldSample) (r : FieldSample) (f : String) :
    (P ++ [r]).find? (fun a => a.field = f) =
      ((P.find? (fun a => a.field = f)).or
        ([r].find? (fun a => a.field = f))) := by
  induction P with
  | nil => simp
  | cons a P ih =>
    by_cases h : a.field = f <;> simp [List.find?, h, ih]

theorem firstValue_snoc_mem (P : List FieldSample) (r : FieldSample) (f : String)
    (h : f ∈ P.map FieldSample.field) :
    firstValue (P ++ [r]) f = firstValue P f := by
  rcases List.mem_map.mp h with ⟨a, ha, rfl⟩
  have : ∃ b, P.find? (fun x => x.field = a.field) = some b := by
    have hsome : (P.find? (fun x => x.field = a.field)).isSome = true :=
      List.find?_isSome.mpr ⟨a, ha, decide_eq_true rfl⟩
    rcases Option.isSome_iff_exists.mp hsome with ⟨b, hb⟩
    exact ⟨b, hb⟩
  rcases this with ⟨b, hb⟩
  unfold firstValue
  rw [find?_snoc, hb]
  rfl

theorem firstValue_snoc_not_mem (P : List FieldSample) (r : FieldSample) (f : String)
    (h : f ∉ P.map FieldSample.field) :
    firstValue (P ++ [r]) f = if r.field = f then r.value else "" := by
  have hnone : P.find? (fun x => x.field = f) = none := by
    rw [List.find?_eq_none]
    intro a ha
    simp only [decide_eq_true_eq]
    intro hf
    exact h (List.mem_map.mpr ⟨a, ha, hf⟩)
  unfold firstValue
  rw [find?_snoc, hnone]
  by_cases hr : r.field = f <;> simp [List.find?, hr]

theorem specGroups_any (P : List FieldSample) (x : String) :
    (specGroups P).any (fun e => e.field = x) = true ↔
      x ∈ P.map FieldSample.field := by
  unfold specGroups
  simp only [List.any_eq_true]
  constructor
  · rintro ⟨e, he, hex⟩
    rcases List.mem_map.mp he with ⟨f, hf, rfl⟩
    simp only [decide_eq_true_eq] at hex
    exact hex ▸ (mem_firstSeen f _).mp hf
  · intro hx
    refine ⟨⟨x, countField P x, firstValue P x⟩, ?_, decide_eq_true rfl⟩
    exact List.mem_map.mpr ⟨x, (mem_firstSeen x _).mpr hx, rfl⟩

theorem groupReduce_specGroups (P : List FieldSample) (r : FieldSample) :
    groupReduce (specGroups P) r = specGroups (P ++ [r]) := by
  have hfields : (P ++ [r]).map FieldSample.field =
      P.map FieldSample.field ++ [r.field] := by
    rw [List.map_append]; rfl
  by_cases hmem : r.field ∈ P.map FieldSample.field
  · have hany : (specGroups P).any (fun e => e.field = r.field) = true :=
      (specGroups_any P r.field).mpr hmem
    simp only [groupReduce, hany, if_true]
    conv_rhs =>
      rw [specGroups, hfields, firstSeen_snoc, if_pos hmem, List.append_nil]
    rw [specGroups, List.map_map]
    apply List.map_congr_left
    intro f hf
    have hfP : f ∈ P.map FieldSample.field := (mem_firstSeen f _).mp hf
    simp only [Function.comp]
    rw [countField_snoc, firstValue_snoc_mem P r f hfP]
    by_cases hfr : f = r.field
    · simp [hfr]
    · have hrf : ¬ r.field = f := fun h => hfr h.symm
      simp [hfr, hrf]
  · have hany : ¬ (specGroups P).any (fun e => e.field = r.field) = true :=
      fun h => hmem ((specGroups_any P r.field).mp h)
    have hX : (specGroups P).any (fun e => e.field = r.field) = false :=
      Bool.not_eq_true _ |>.mp hany
    simp only [groupReduce, hX, Bool.false_eq_true, if_false]
    rw [List.map_append]
    have hold : (specGroups P).map
        (fun e => if e.field = r.field then
          (⟨e.field, e.count + 1, e.value⟩ : FieldData) else e) = specGroups P := by
      conv_rhs => rw [specGroups]
      rw [specGroups, List.map_map]
      apply List.map_congr_left
      intro f hf
      have hfP : f ∈ P.map FieldSample.field := (mem_firstSeen f _).mp hf
      have hfr : ¬ f = r.field := fun h => hmem (h ▸ hfP)
      simp [Function.comp, hfr]
    rw [hold]
    conv_rhs =>
      rw [specGroups, hfields, firstSeen_snoc, if_neg hmem, List.map_append]
    congr 1
    · rw [specGroups]
      apply List.map_congr_left
      intro f hf
      have hfP : f ∈ P.map FieldSample.field := (mem_firstSeen f _).mp hf
      have hrf : ¬ r.field = f := fun h => hmem (h ▸ hfP)
      rw [countField_snoc, firstValue_snoc_mem P r f hfP]
      simp [hrf]
    · simp only [List.map_cons, List.map_nil]
      rw [countField_snoc, countField_eq_zero P r.field hmem,
        firstValue_snoc_not_mem P r r.field hmem]
      simp

theorem foldl_groupReduce (rest : List FieldSample) :
    ∀ P, List.foldl groupReduce (specGroups P) rest = specGroups (P ++ rest) := by
  induction rest with
  | nil => intro P; rw [List.foldl_nil, List.append_nil]
  | cons r rest ih =>
    intro P
    rw [List.foldl_cons, groupReduce_specGroups, ih (P ++ [r]),
      List.append_assoc]
    rfl

theorem groupedData_eq_specGroups (rows : List FieldSample) :
    groupedData rows = specGroups rows := by
  have h0 : specGroups [] = ([] : List FieldData) := rfl
  have := foldl_groupReduce rows []
  rw [h0] at this
  unfold groupedData
  rw [this]
  rfl

/-- Claim C4: the dashboard aggregation equals, for every input row
sequence and limit, the spec description: group by field name in
first-seen order, count occurrences per group, keep the value of the
first record seen per group as the last value, and truncate to `limit`
groups; the concrete newest-first example gives Temp with count 2 and
value 20 followed by Humidity with count 1 and value 55. -/
theorem C4_dashboard_aggregation :
    (∀ rows limit, aggregate rows limit = specAggregate rows limit) ∧
    aggregate [⟨"Temp", "20"⟩, ⟨"Temp", "21"⟩, ⟨"Humidity", "55"⟩] 5 =
      [⟨"Temp", 2, "20"⟩, ⟨"Humidity", 1, "55"⟩] := by
  refine ⟨?_, by decide⟩
  intro rows limit
  unfold aggregate specAggregate
  rw [groupedData_eq_specGroups]
  rfl
